import Mathlib

/-!
Verification of the stealth tab-pool screenshot service
(`src/services/screenshotService.js`, `src/routes/screenshot.js`,
`src/utils/helpers.js`).

The JavaScript service is shallowly embedded.  The JS `Map` of tabs is
modelled as an insertion-ordered association list (JS `Map` iterates in
insertion order), the service object as a record, and each method as a
pure state-transformer on that record.  JavaScript runs the synchronous
part of each method atomically; interleaving of concurrent calls at
`await` points is modelled separately for the concurrency claim.
-/

namespace Screenshot

/-- One tab of the pool (a puppeteer `Page`).  `bgen` is the generation
number of the owning browser process; `closed` mirrors `page.isClosed()`;
`url` mirrors `page.url()` (a freshly opened page sits at `about:blank`). -/
structure Tab where
  bgen : Nat
  closed : Bool
  url : String
deriving Repr, DecidableEq

/-- The `stats` record of `StealthTabPoolScreenshotService` (constructor,
lines 37-47).  `averageProcessingTime` is floating point and outside the
claims, so it is not modelled. -/
structure Stats where
  totalRequests : Nat := 0
  successfulRequests : Nat := 0
  failedRequests : Nat := 0
  activeTabsCount : Nat := 0
  browserRestarts : Nat := 0
  tabsCreated : Nat := 0
  tabsClosed : Nat := 0
  blockedRequests : Nat := 0
deriving Repr, DecidableEq

/-- State of the service object.  `browser = some g` means a connected
browser of generation `g`; `none` means `this.browser` is null or the
browser is disconnected (both make `createNewTab` re-initialize).
`nextGen` numbers successive browser launches. -/
structure SvcState where
  browser : Option Nat := none
  nextGen : Nat := 0
  tabs : List (Nat × Tab) := []
  maxTabs : Nat := 20
  tabIdCounter : Nat := 0
  isShuttingDown : Bool := false
  browserRestartCount : Nat := 0
  stats : Stats := {}
deriving Repr, DecidableEq

def initState (m : Nat) : SvcState := { maxTabs := m }

/-- `getAvailableTab`, lines 229-234: delete every already-closed tab
from the map, counting each deletion in `stats.tabsClosed`. -/
def cleanupClosedTabs (s : SvcState) : SvcState :=
  { s with
    tabs := s.tabs.filter (fun p => !p.2.closed),
    stats := { s.stats with
      tabsClosed := s.stats.tabsClosed + (s.tabs.filter (fun p => p.2.closed)).length } }

/-- `createNewTab`, lines 266-268 together with `initializeBrowser`:
if there is no connected browser, launch one (a fresh generation). -/
def ensureBrowser (s : SvcState) : SvcState :=
  match s.browser with
  | some _ => s
  | none => { s with browser := some s.nextGen, nextGen := s.nextGen + 1 }

/-- `createNewTab`, lines 265-287: ensure a browser, take
`++this.tabIdCounter` as the new id, open a page (which starts at
`about:blank`), register it in the map and update the counters. -/
def createNewTab (s : SvcState) : SvcState × Nat × Tab :=
  let s1 := ensureBrowser s
  let tabId := s1.tabIdCounter + 1
  let t : Tab := { bgen := s1.browser.getD 0, closed := false, url := "about:blank" }
  let tabs := s1.tabs ++ [(tabId, t)]
  ({ s1 with
      tabIdCounter := tabId,
      tabs := tabs,
      stats := { s1.stats with
        tabsCreated := s1.stats.tabsCreated + 1,
        activeTabsCount := tabs.length } },
   tabId, t)

/-- `getAvailableTab`, lines 247-251: scan the map in insertion order for
a tab that is not closed and sits at `about:blank`. -/
def findIdleTab (tabs : List (Nat × Tab)) : Option (Nat × Tab) :=
  tabs.find? (fun p => !p.2.closed && p.2.url == "about:blank")

/-- Result of one atomic pass of `getAvailableTab`: a tab was created, an
idle tab was reused, or the pool is saturated with no idle tab (the code
then enters the 30 s poll loop, modelled separately as `waitForTabAux`). -/
inductive AcqResult where
  | created (id : Nat) (t : Tab)
  | reused (id : Nat) (t : Tab)
  | exhausted
deriving Repr, DecidableEq

/-- One atomic pass of `getAvailableTab` (lines 227-263): cleanup, then
create if strictly below `maxTabs`, otherwise reuse the first idle tab. -/
def getAvailableTabStep (s : SvcState) : SvcState × AcqResult :=
  let s1 := cleanupClosedTabs s
  if s1.tabs.length < s1.maxTabs then
    let r := createNewTab s1
    (r.1, .created r.2.1 r.2.2)
  else
    match findIdleTab s1.tabs with
    | some (id, t) => (s1, .reused id t)
    | none => (s1, .exhausted)

/-- `closeTab`, lines 431-449: look the id up; when present and not
already closed, close the page and delete it from the map (the delete
also happens when `page.close()` throws, line 446). -/
def closeTab (s : SvcState) (tabId : Nat) : SvcState :=
  match s.tabs.find? (fun p => p.1 == tabId) with
  | some pr =>
    if pr.2.closed then s
    else
      let tabs := s.tabs.filter (fun p => p.1 != tabId)
      { s with
        tabs := tabs,
        stats := { s.stats with
          tabsClosed := s.stats.tabsClosed + 1,
          activeTabsCount := tabs.length } }
  | none => s

/-- Navigation of a borrowed tab (`page.goto`, line 536): the page's
reported url becomes the target url. -/
def setTabUrl (s : SvcState) (tabId : Nat) (u : String) : SvcState :=
  { s with
    tabs := s.tabs.map (fun p => if p.1 == tabId then (p.1, { p.2 with url := u }) else p) }

/-- Release of a tab after a successful screenshot (`takeScreenshot`,
line 609): navigate it back to `about:blank`, making it idle again. -/
def releaseTab (s : SvcState) (tabId : Nat) : SvcState :=
  setTabUrl s tabId "about:blank"

/-- A tab closing out of band (crash of a single page): `page.isClosed()`
starts reporting true; nothing else changes until the defensive cleanup. -/
def externalCloseTab (s : SvcState) (tabId : Nat) : SvcState :=
  { s with
    tabs := s.tabs.map (fun p => if p.1 == tabId then (p.1, { p.2 with closed := true }) else p) }

def maxBrowserRestarts : Nat := 5

/-- The `disconnected` handler of `_launchBrowser`, lines 167-189:
null the browser handle, clear the whole tab map, and - unless shutting
down or over the restart budget - count a restart (the actual relaunch
runs later from a `setTimeout`, modelled as a separate `relaunch` op). -/
def onBrowserDisconnected (s : SvcState) : SvcState :=
  let s1 := { s with browser := (none : Option Nat), tabs := ([] : List (Nat × Tab)) }
  if !s1.isShuttingDown && s1.browserRestartCount < maxBrowserRestarts then
    { s1 with
      browserRestartCount := s1.browserRestartCount + 1,
      stats := { s1.stats with browserRestarts := s1.stats.browserRestarts + 1 } }
  else s1

/-- The atomic pool operations the sequential claims quantify over. -/
inductive PoolOp where
  | acquire
  | close (tabId : Nat)
  | release (tabId : Nat)
  | navigate (tabId : Nat) (u : String)
  | extClose (tabId : Nat)
  | disconnect
  | relaunch
deriving Repr, DecidableEq

def applyOp (s : SvcState) : PoolOp → SvcState
  | .acquire => (getAvailableTabStep s).1
  | .close id => closeTab s id
  | .release id => releaseTab s id
  | .navigate id u => setTabUrl s id u
  | .extClose id => externalCloseTab s id
  | .disconnect => onBrowserDisconnected s
  | .relaunch => ensureBrowser s

def runOps (m : Nat) (ops : List PoolOp) : SvcState :=
  ops.foldl applyOp (initState m)

/-- Number of non-closed tabs held in the pool map. -/
def nonClosedCount (s : SvcState) : Nat :=
  (s.tabs.filter (fun p => !p.2.closed)).length

theorem ensureBrowser_tabs (s : SvcState) : (ensureBrowser s).tabs = s.tabs := by
  unfold ensureBrowser; cases s.browser <;> rfl

theorem ensureBrowser_maxTabs (s : SvcState) : (ensureBrowser s).maxTabs = s.maxTabs := by
  unfold ensureBrowser; cases s.browser <;> rfl

theorem createNewTab_tabs_length (s : SvcState) :
    (createNewTab s).1.tabs.length = s.tabs.length + 1 := by
  simp [createNewTab, ensureBrowser_tabs]

theorem createNewTab_maxTabs (s : SvcState) : (createNewTab s).1.maxTabs = s.maxTabs := by
  simp [createNewTab, ensureBrowser_maxTabs]

theorem cleanup_tabs_length (s : SvcState) :
    (cleanupClosedTabs s).tabs.length ≤ s.tabs.length := by
  simpa [cleanupClosedTabs] using List.length_filter_le _ s.tabs

theorem closeTab_tabs_length (s : SvcState) (tabId : Nat) :
    (closeTab s tabId).tabs.length ≤ s.tabs.length := by
  unfold closeTab
  split
  · split
    · exact le_refl _
    · exact List.length_filter_le _ s.tabs
  · exact le_refl _

theorem closeTab_maxTabs (s : SvcState) (tabId : Nat) :
    (closeTab s tabId).maxTabs = s.maxTabs := by
  unfold closeTab
  split
  · split <;> rfl
  · rfl

theorem setTabUrl_tabs_length (s : SvcState) (tabId : Nat) (u : String) :
    (setTabUrl s tabId u).tabs.length = s.tabs.length := by
  simp [setTabUrl]

theorem externalCloseTab_tabs_length (s : SvcState) (tabId : Nat) :
    (externalCloseTab s tabId).tabs.length = s.tabs.length := by
  simp [externalCloseTab]

theorem onBrowserDisconnected_tabs (s : SvcState) :
    (onBrowserDisconnected s).tabs = [] := by
  simp only [onBrowserDisconnected]
  split <;> rfl

theorem onBrowserDisconnected_maxTabs (s : SvcState) :
    (onBrowserDisconnected s).maxTabs = s.maxTabs := by
  simp only [onBrowserDisconnected]
  split <;> rfl

theorem cleanup_maxTabs (s : SvcState) : (cleanupClosedTabs s).maxTabs = s.maxTabs := rfl

theorem getAvailableTabStep_maxTabs (s : SvcState) :
    (getAvailableTabStep s).1.maxTabs = s.maxTabs := by
  simp only [getAvailableTabStep]
  split
  · exact createNewTab_maxTabs (cleanupClosedTabs s)
  · split <;> rfl

theorem getAvailableTabStep_tabs_length (s : SvcState) (h : s.tabs.length ≤ s.maxTabs) :
    (getAvailableTabStep s).1.tabs.length ≤ s.maxTabs := by
  simp only [getAvailableTabStep]
  split
  · next hlt =>
    have h1 := createNewTab_tabs_length (cleanupClosedTabs s)
    have hlt' : (cleanupClosedTabs s).tabs.length < s.maxTabs := hlt
    show (createNewTab (cleanupClosedTabs s)).1.tabs.length ≤ s.maxTabs
    rw [h1]
    omega
  · split
    · exact le_trans (cleanup_tabs_length s) h
    · exact le_trans (cleanup_tabs_length s) h

theorem applyOp_preserves_bound (s : SvcState) (op : PoolOp) (h : s.tabs.length ≤ s.maxTabs) :
    (applyOp s op).maxTabs = s.maxTabs ∧ (applyOp s op).tabs.length ≤ s.maxTabs := by
  cases op with
  | acquire =>
    exact ⟨getAvailableTabStep_maxTabs s, getAvailableTabStep_tabs_length s h⟩
  | close tabId =>
    exact ⟨closeTab_maxTabs s tabId, le_trans (closeTab_tabs_length s tabId) h⟩
  | release tabId =>
    exact ⟨rfl, le_of_eq_of_le (setTabUrl_tabs_length s tabId "about:blank") h⟩
  | navigate tabId u =>
    exact ⟨rfl, le_of_eq_of_le (setTabUrl_tabs_length s tabId u) h⟩
  | extClose tabId =>
    exact ⟨rfl, le_of_eq_of_le (externalCloseTab_tabs_length s tabId) h⟩
  | disconnect =>
    refine ⟨onBrowserDisconnected_maxTabs s, ?_⟩
    show (onBrowserDisconnected s).tabs.length ≤ s.maxTabs
    rw [onBrowserDisconnected_tabs]
    exact Nat.zero_le _
  | relaunch =>
    refine ⟨ensureBrowser_maxTabs s, ?_⟩
    show (ensureBrowser s).tabs.length ≤ s.maxTabs
    rw [ensureBrowser_tabs]
    exact h

theorem runOps_size_invariant (m : Nat) (ops : List PoolOp) :
    (runOps m ops).maxTabs = m ∧ (runOps m ops).tabs.length ≤ m := by
  suffices h : ∀ (l : List PoolOp) (s : SvcState), s.maxTabs = m → s.tabs.length ≤ m →
      (l.foldl applyOp s).maxTabs = m ∧ (l.foldl applyOp s).tabs.length ≤ m by
    exact h ops (initState m) rfl (by simp [initState])
  intro l
  induction l with
  | nil => intro s h1 h2; exact ⟨h1, h2⟩
  | cons op rest ih =>
    intro s h1 h2
    have hp := applyOp_preserves_bound s op (h1 ▸ h2)
    exact ih _ (hp.1.trans h1) (h1 ▸ hp.2)

/-- Generation the browser would have after `ensureBrowser`: the current
one when connected, the next fresh one otherwise. -/
def currentGen (s : SvcState) : Nat :=
  match s.browser with
  | some g => g
  | none => s.nextGen

theorem ensureBrowser_browser (s : SvcState) :
    (ensureBrowser s).browser = some (currentGen s) := by
  cases hb : s.browser <;> simp [ensureBrowser, currentGen, hb]

theorem ensureBrowser_nextGen_ge (s : SvcState) : s.nextGen ≤ (ensureBrowser s).nextGen := by
  unfold ensureBrowser
  cases s.browser with
  | none => exact Nat.le_succ _
  | some g => exact le_refl _

theorem onBrowserDisconnected_browser (s : SvcState) :
    (onBrowserDisconnected s).browser = none := by
  simp only [onBrowserDisconnected]
  split <;> rfl

theorem onBrowserDisconnected_nextGen (s : SvcState) :
    (onBrowserDisconnected s).nextGen = s.nextGen := by
  simp only [onBrowserDisconnected]
  split <;> rfl

theorem closeTab_browser (s : SvcState) (tabId : Nat) :
    (closeTab s tabId).browser = s.browser := by
  unfold closeTab
  split
  · split <;> rfl
  · rfl

theorem closeTab_nextGen (s : SvcState) (tabId : Nat) :
    (closeTab s tabId).nextGen = s.nextGen := by
  unfold closeTab
  split
  · split <;> rfl
  · rfl

theorem closeTab_tabs_sub (s : SvcState) (tabId : Nat) :
    ∀ p ∈ (closeTab s tabId).tabs, p ∈ s.tabs := by
  unfold closeTab
  split
  · split
    · exact fun p hp => hp
    · exact fun p hp => (List.mem_filter.mp hp).1
  · exact fun p hp => hp

/-- Browser generations handed out so far stay below the fresh counter. -/
def BrowserGenOk (s : SvcState) : Prop :=
  ∀ g, s.browser = some g → g < s.nextGen

theorem ensureBrowser_genOk (s : SvcState) (h : BrowserGenOk s) :
    BrowserGenOk (ensureBrowser s) := by
  intro g hg
  cases hb : s.browser with
  | none =>
    simp [ensureBrowser, hb] at hg ⊢
    omega
  | some gb =>
    simp [ensureBrowser, hb] at hg ⊢
    exact hg ▸ h gb hb

theorem getAvailableTabStep_genOk (s : SvcState) (h : BrowserGenOk s) :
    BrowserGenOk (getAvailableTabStep s).1 := by
  have hc : BrowserGenOk (cleanupClosedTabs s) := h
  simp only [getAvailableTabStep]
  split
  · exact ensureBrowser_genOk _ hc
  · split
    · exact hc
    · exact hc

theorem applyOp_genOk (s : SvcState) (op : PoolOp) (h : BrowserGenOk s) :
    BrowserGenOk (applyOp s op) := by
  cases op with
  | acquire => exact getAvailableTabStep_genOk s h
  | close tabId =>
    intro g hg
    rw [show (applyOp s (.close tabId)) = closeTab s tabId from rfl, closeTab_browser] at hg
    rw [show (applyOp s (.close tabId)) = closeTab s tabId from rfl, closeTab_nextGen]
    exact h g hg
  | release tabId => exact h
  | navigate tabId u => exact h
  | extClose tabId => exact h
  | disconnect =>
    intro g hg
    rw [show (applyOp s .disconnect) = onBrowserDisconnected s from rfl,
      onBrowserDisconnected_browser] at hg
    exact Option.noConfusion hg
  | relaunch => exact ensureBrowser_genOk s h

theorem runOps_genOk (m : Nat) (ops : List PoolOp) : BrowserGenOk (runOps m ops) := by
  suffices h : ∀ (l : List PoolOp) (s : SvcState), BrowserGenOk s →
      BrowserGenOk (l.foldl applyOp s) by
    refine h ops (initState m) ?_
    intro g hg
    simp [initState] at hg
  intro l
  induction l with
  | nil => exact fun s hs => hs
  | cons op rest ih => exact fun s hs => ih _ (applyOp_genOk s op hs)

/-- After the browser of generation `g` died: no tab of the pool belongs
to it, the current browser (if any) is not it, and fresh generations are
past it. -/
def DeadFree (g : Nat) (s : SvcState) : Prop :=
  (∀ p ∈ s.tabs, p.2.bgen ≠ g) ∧ (∀ g', s.browser = some g' → g' ≠ g) ∧ g < s.nextGen

theorem currentGen_ne (s : SvcState) (g : Nat)
    (h2 : ∀ g', s.browser = some g' → g' ≠ g) (h3 : g < s.nextGen) :
    currentGen s ≠ g := by
  cases hb : s.browser with
  | none =>
    have he : currentGen s = s.nextGen := by simp [currentGen, hb]
    rw [he]
    omega
  | some gb =>
    have he : currentGen s = gb := by simp [currentGen, hb]
    rw [he]
    exact h2 gb hb

theorem deadFree_cleanup (g : Nat) (s : SvcState) (h : DeadFree g s) :
    DeadFree g (cleanupClosedTabs s) := by
  obtain ⟨h1, h2, h3⟩ := h
  exact ⟨fun p hp => h1 p (List.mem_filter.mp hp).1, h2, h3⟩

theorem deadFree_ensureBrowser (g : Nat) (s : SvcState) (h : DeadFree g s) :
    DeadFree g (ensureBrowser s) := by
  obtain ⟨h1, h2, h3⟩ := h
  refine ⟨?_, ?_, ?_⟩
  · intro p hp
    rw [ensureBrowser_tabs] at hp
    exact h1 p hp
  · intro g' hg'
    rw [ensureBrowser_browser] at hg'
    injection hg' with he
    exact he ▸ currentGen_ne s g h2 h3
  · exact lt_of_lt_of_le h3 (ensureBrowser_nextGen_ge s)

theorem deadFree_createNewTab (g : Nat) (s : SvcState) (h : DeadFree g s) :
    DeadFree g (createNewTab s).1 := by
  obtain ⟨e1, e2, e3⟩ := deadFree_ensureBrowser g s h
  refine ⟨?_, e2, e3⟩
  intro p hp
  simp only [createNewTab, List.mem_append, List.mem_singleton] at hp
  cases hp with
  | inl hmem => exact e1 p hmem
  | inr heq =>
    subst heq
    show (ensureBrowser s).browser.getD 0 ≠ g
    rw [ensureBrowser_browser]
    exact currentGen_ne s g h.2.1 h.2.2

theorem setTabUrl_mem (s : SvcState) (tabId : Nat) (u : String) (p : Nat × Tab)
    (hp : p ∈ (setTabUrl s tabId u).tabs) : ∃ q ∈ s.tabs, p.2.bgen = q.2.bgen := by
  simp only [setTabUrl, List.mem_map] at hp
  obtain ⟨q, hq, hfq⟩ := hp
  by_cases hid : (q.1 == tabId) = true
  · rw [if_pos hid] at hfq
    exact ⟨q, hq, by rw [← hfq]⟩
  · rw [if_neg hid] at hfq
    exact ⟨q, hq, by rw [← hfq]⟩

theorem externalCloseTab_mem (s : SvcState) (tabId : Nat) (p : Nat × Tab)
    (hp : p ∈ (externalCloseTab s tabId).tabs) : ∃ q ∈ s.tabs, p.2.bgen = q.2.bgen := by
  simp only [externalCloseTab, List.mem_map] at hp
  obtain ⟨q, hq, hfq⟩ := hp
  by_cases hid : (q.1 == tabId) = true
  · rw [if_pos hid] at hfq
    exact ⟨q, hq, by rw [← hfq]⟩
  · rw [if_neg hid] at hfq
    exact ⟨q, hq, by rw [← hfq]⟩

theorem applyOp_deadFree (g : Nat) (s : SvcState) (op : PoolOp) (h : DeadFree g s) :
    DeadFree g (applyOp s op) := by
  cases op with
  | acquire =>
    have hc := deadFree_cleanup g s h
    show DeadFree g (getAvailableTabStep s).1
    simp only [getAvailableTabStep]
    split
    · exact deadFree_createNewTab g _ hc
    · split
      · exact hc
      · exact hc
  | close tabId =>
    obtain ⟨h1, h2, h3⟩ := h
    refine ⟨fun p hp => h1 p (closeTab_tabs_sub s tabId p hp), ?_, ?_⟩
    · intro g' hg'
      rw [show (applyOp s (.close tabId)) = closeTab s tabId from rfl, closeTab_browser] at hg'
      exact h2 g' hg'
    · rw [show (applyOp s (.close tabId)) = closeTab s tabId from rfl, closeTab_nextGen]
      exact h3
  | release tabId =>
    obtain ⟨h1, h2, h3⟩ := h
    refine ⟨?_, h2, h3⟩
    intro p hp
    obtain ⟨q, hq, he⟩ := setTabUrl_mem s tabId "about:blank" p hp
    exact he ▸ h1 q hq
  | navigate tabId u =>
    obtain ⟨h1, h2, h3⟩ := h
    refine ⟨?_, h2, h3⟩
    intro p hp
    obtain ⟨q, hq, he⟩ := setTabUrl_mem s tabId u p hp
    exact he ▸ h1 q hq
  | extClose tabId =>
    obtain ⟨h1, h2, h3⟩ := h
    refine ⟨?_, h2, h3⟩
    intro p hp
    obtain ⟨q, hq, he⟩ := externalCloseTab_mem s tabId p hp
    exact he ▸ h1 q hq
  | disconnect =>
    obtain ⟨h1, h2, h3⟩ := h
    refine ⟨?_, ?_, ?_⟩
    · intro p hp
      rw [show (applyOp s .disconnect) = onBrowserDisconnected s from rfl,
        onBrowserDisconnected_tabs] at hp
      exact absurd hp (List.not_mem_nil p)
    · intro g' hg'
      rw [show (applyOp s .disconnect) = onBrowserDisconnected s from rfl,
        onBrowserDisconnected_browser] at hg'
      exact Option.noConfusion hg'
    · rw [show (applyOp s .disconnect) = onBrowserDisconnected s from rfl,
        onBrowserDisconnected_nextGen]
      exact h3
  | relaunch => exact deadFree_ensureBrowser g s h

theorem foldl_deadFree (g : Nat) (ops : List PoolOp) (s : SvcState) (h : DeadFree g s) :
    DeadFree g (ops.foldl applyOp s) := by
  induction ops generalizing s with
  | nil => exact h
  | cons op rest ih => exact ih _ (applyOp_deadFree g s op h)

theorem disconnect_deadFree (g : Nat) (s : SvcState) (hok : BrowserGenOk s)
    (hb : s.browser = some g) : DeadFree g (onBrowserDisconnected s) := by
  refine ⟨?_, ?_, ?_⟩
  · intro p hp
    rw [onBrowserDisconnected_tabs] at hp
    exact absurd hp (List.not_mem_nil p)
  · intro g' hg'
    rw [onBrowserDisconnected_browser] at hg'
    exact Option.noConfusion hg'
  · rw [onBrowserDisconnected_nextGen]
    exact hok g hb

/-- The service state after ops `ops1`, then a browser disconnect, then
further ops `ops2`. -/
def afterDisconnect (m : Nat) (ops1 ops2 : List PoolOp) : SvcState :=
  ops2.foldl applyOp (onBrowserDisconnected (runOps m ops1))

theorem getAvailableTabStep_created_bgen (s : SvcState) (id : Nat) (t : Tab)
    (h : (getAvailableTabStep s).2 = .created id t) :
    t.bgen = currentGen (cleanupClosedTabs s) := by
  simp only [getAvailableTabStep] at h
  split at h
  · injection h with h1 h2
    subst h2
    show (ensureBrowser (cleanupClosedTabs s)).browser.getD 0 = _
    rw [ensureBrowser_browser]
    rfl
  · split at h
    · exact absurd h (by simp)
    · exact absurd h (by simp)

theorem getAvailableTabStep_reused_mem (s : SvcState) (id : Nat) (t : Tab)
    (h : (getAvailableTabStep s).2 = .reused id t) :
    (id, t) ∈ (cleanupClosedTabs s).tabs := by
  simp only [getAvailableTabStep] at h
  split at h
  · exact absurd h (by simp)
  · split at h
    · next id' t' hfind =>
      injection h with h1 h2
      subst h1; subst h2
      exact List.mem_of_find?_eq_some hfind
    · exact absurd h (by simp)

/-- C3: after a browser-disconnect event every tab of the dead browser is
purged (the handler clears the whole map synchronously), so an acquire
performed any time later never returns a tab bound to the dead browser
generation; creation after a disconnect first re-establishes a connected
browser of a strictly newer generation. -/
theorem c3_no_dead_tab_after_disconnect (m : Nat) (ops1 ops2 : List PoolOp) (g id : Nat)
    (t : Tab) (hb : (runOps m ops1).browser = some g)
    (hres : (getAvailableTabStep (afterDisconnect m ops1 ops2)).2 = .created id t ∨
            (getAvailableTabStep (afterDisconnect m ops1 ops2)).2 = .reused id t) :
    t.bgen ≠ g := by
  have hok : BrowserGenOk (runOps m ops1) := runOps_genOk m ops1
  have hdf : DeadFree g (afterDisconnect m ops1 ops2) :=
    foldl_deadFree g ops2 _ (disconnect_deadFree g _ hok hb)
  have hdfc := deadFree_cleanup g _ hdf
  cases hres with
  | inl hc =>
    have hbg := getAvailableTabStep_created_bgen _ id t hc
    rw [hbg]
    exact currentGen_ne _ g hdfc.2.1 hdfc.2.2
  | inr hr =>
    have hmem := getAvailableTabStep_reused_mem _ id t hr
    exact hdfc.1 (id, t) hmem

/-- Witness for C3 at a concrete input: launch (generation 0), disconnect,
then acquire; the created tab belongs to generation 1, not 0. -/
theorem c3_witness :
    (runOps 2 [PoolOp.relaunch]).browser = some 0 ∧
    (Tab.mk 1 false "about:blank").bgen ≠ 0 :=
  ⟨by decide,
   c3_no_dead_tab_after_disconnect 2 [PoolOp.relaunch] [] 0 1 (Tab.mk 1 false "about:blank")
     (by decide) (Or.inl (by decide))⟩

/-- C1: for every sequence of pool operations (acquisition via
`getAvailableTab`/`createNewTab`, discarding via `closeTab`, the
defensive cleanup of already-closed tabs, out-of-band closes, releases,
disconnects and relaunches), the number of non-closed tabs held in the
pool map never exceeds `maxTabs`: creation happens only when the count
after cleanup is strictly below `maxTabs`, and `closeTab` and the
cleanup loop only remove tabs. -/
theorem c1_pool_never_exceeds_maxTabs (m : Nat) (ops : List PoolOp) :
    nonClosedCount (runOps m ops) ≤ m := by
  have h := (runOps_size_invariant m ops).2
  exact le_trans (List.length_filter_le _ _) h

/-! ## Supervisor model: disconnects and bounded auto-restart -/

/-- Supervisor-level view of the service for the `disconnected` handler
(lines 166-189): browser connectivity, the restart counter and its stats
mirror, the shutdown flag, how many `setTimeout` restarts were ever
scheduled, and whether one is currently pending. -/
structure SupState where
  connected : Bool := true
  browserRestartCount : Nat := 0
  statsBrowserRestarts : Nat := 0
  isShuttingDown : Bool := false
  scheduledRestarts : Nat := 0
  pendingRestart : Bool := false
deriving Repr, DecidableEq

inductive SupEvent where
  | disconnect
  | restartFires
  | beginShutdown
deriving Repr, DecidableEq

/-- One supervisor event.  `disconnect` runs the handler of lines
167-189: mark disconnected and, unless shutting down or the budget
`maxBrowserRestarts` is spent, count the restart and schedule one.
`restartFires` is the scheduled `setTimeout` running `initializeBrowser`
successfully; `beginShutdown` is `shutdown()` setting the flag
(line 1231). -/
def supStep (s : SupState) : SupEvent → SupState
  | .disconnect =>
    let s1 := { s with connected := false }
    if !s1.isShuttingDown && s1.browserRestartCount < maxBrowserRestarts then
      { s1 with
        browserRestartCount := s1.browserRestartCount + 1,
        statsBrowserRestarts := s1.statsBrowserRestarts + 1,
        scheduledRestarts := s1.scheduledRestarts + 1,
        pendingRestart := true }
    else s1
  | .restartFires =>
    if s.pendingRestart then { s with pendingRestart := false, connected := true } else s
  | .beginShutdown => { s with isShuttingDown := true }

def supRun (events : List SupEvent) : SupState := events.foldl supStep {}

/-- `getStats`, line 1223: `browserConnected: this.browser?.isConnected() || false`. -/
def getStatsBrowserConnected (s : SupState) : Bool := s.connected

/-- Five disconnect/relaunch cycles. -/
def fiveCycles : List SupEvent :=
  [.disconnect, .restartFires, .disconnect, .restartFires, .disconnect, .restartFires,
   .disconnect, .restartFires, .disconnect, .restartFires]

/-- Five disconnect/relaunch cycles followed by a sixth disconnect. -/
def sixthDisconnect : List SupEvent := fiveCycles ++ [.disconnect]

theorem supStep_restart_inv (s : SupState) (e : SupEvent)
    (h : s.statsBrowserRestarts = s.browserRestartCount ∧
         s.browserRestartCount ≤ maxBrowserRestarts) :
    (supStep s e).statsBrowserRestarts = (supStep s e).browserRestartCount ∧
    (supStep s e).browserRestartCount ≤ maxBrowserRestarts := by
  cases e with
  | disconnect =>
    simp only [supStep]
    split
    · next hcond =>
      simp only [Bool.and_eq_true, decide_eq_true_eq] at hcond
      constructor
      · show s.statsBrowserRestarts + 1 = s.browserRestartCount + 1
        rw [h.1]
      · show s.browserRestartCount + 1 ≤ maxBrowserRestarts
        omega
    · exact h
  | restartFires =>
    simp only [supStep]
    split
    · exact h
    · exact h
  | beginShutdown => exact h

theorem supRun_restart_bound (events : List SupEvent) :
    (supRun events).statsBrowserRestarts ≤ maxBrowserRestarts := by
  suffices h : ∀ (l : List SupEvent) (s : SupState),
      s.statsBrowserRestarts = s.browserRestartCount →
      s.browserRestartCount ≤ maxBrowserRestarts →
      (l.foldl supStep s).statsBrowserRestarts = (l.foldl supStep s).browserRestartCount ∧
      (l.foldl supStep s).browserRestartCount ≤ maxBrowserRestarts by
    have hr := h events {} rfl (by simp [maxBrowserRestarts])
    rw [supRun, hr.1]
    exact hr.2
  intro l
  induction l with
  | nil => exact fun s h1 h2 => ⟨h1, h2⟩
  | cons e rest ih =>
    intro s h1 h2
    have hp := supStep_restart_inv s e ⟨h1, h2⟩
    exact ih _ hp.1 hp.2

/-- C4: with `maxBrowserRestarts = 5`, exactly five restart attempts are
scheduled across five consecutive disconnects; the sixth disconnect
schedules none and leaves the service reported unavailable through
`getStats` (`browserConnected = false`); a disconnect while shutting
down schedules nothing; and `stats.browserRestarts` never exceeds five
over any event sequence. -/
theorem c4_restarts_bounded_by_five (events : List SupEvent) (s : SupState)
    (hsd : s.isShuttingDown = true) :
    ((supRun fiveCycles).scheduledRestarts = 5 ∧
     (supRun sixthDisconnect).scheduledRestarts = 5 ∧
     (supRun sixthDisconnect).statsBrowserRestarts = 5 ∧
     (supRun sixthDisconnect).pendingRestart = false ∧
     getStatsBrowserConnected (supRun sixthDisconnect) = false) ∧
    (supRun events).statsBrowserRestarts ≤ maxBrowserRestarts ∧
    ((supStep s .disconnect).scheduledRestarts = s.scheduledRestarts ∧
     (supStep s .disconnect).pendingRestart = s.pendingRestart) := by
  refine ⟨by decide, supRun_restart_bound events, ?_⟩
  simp [supStep, hsd]

/-- Witness for C4 at concrete inputs: the empty event sequence and a
shutting-down supervisor state. -/
theorem c4_witness :
    ({ isShuttingDown := true } : SupState).isShuttingDown = true ∧
    (supRun []).statsBrowserRestarts ≤ maxBrowserRestarts ∧
    (supStep { isShuttingDown := true } .disconnect).scheduledRestarts =
      ({ isShuttingDown := true } : SupState).scheduledRestarts :=
  ⟨rfl, (c4_restarts_bounded_by_five [] { isShuttingDown := true } rfl).2.1,
   (c4_restarts_bounded_by_five [] { isShuttingDown := true } rfl).2.2.1⟩

/-! ## Single-flight browser launch (`initializeBrowser`, lines 53-74) -/

/-- Launch-level view of the service.  `browserLaunchPromise` holds the
id of the memoized launch promise (null when cleared); `promises` maps
every promise ever created to whether it has settled; `browserSet`
mirrors `this.browser` being a connected browser. -/
structure LaunchState where
  browserLaunchPromise : Option Nat := none
  promises : List (Nat × Bool) := []
  nextPromise : Nat := 0
  browserSet : Bool := false
deriving Repr, DecidableEq

/-- The launch promise `p` exists and has not settled yet. -/
def pendingLaunch (s : LaunchState) (p : Nat) : Bool :=
  s.promises.any (fun q => q.1 == p && !q.2)

/-- Number of launches currently in flight (created, not yet settled). -/
def inFlightCount (s : LaunchState) : Nat :=
  (s.promises.filter (fun q => !q.2)).length

/-- The synchronous prefix of `initializeBrowser` (lines 53-58): if a
launch promise is memoized return it, otherwise start `_launchBrowser`
and memoize the fresh promise.  Returns the promise the caller awaits. -/
def initializeBrowserCall (s : LaunchState) : LaunchState × Nat :=
  match s.browserLaunchPromise with
  | some p => (s, p)
  | none =>
    let p := s.nextPromise
    ({ s with
        browserLaunchPromise := some p,
        promises := s.promises ++ [(p, false)],
        nextPromise := p + 1 }, p)

/-- Mark promise `p` settled. -/
def settle (l : List (Nat × Bool)) (p : Nat) : List (Nat × Bool) :=
  l.map (fun q => if q.1 == p then (q.1, true) else q)

inductive LaunchEvent where
  | call
  | resolveLaunch
  | rejectLaunch
  | disconnect
deriving Repr, DecidableEq

/-- Launch-level events.  `call` is any invocation of
`initializeBrowser`; `resolveLaunch` is the memoized promise resolving
(line 61: the browser handle is stored, the promise marker is kept);
`rejectLaunch` is it failing (line 69: the marker is nulled);
`disconnect` is the `disconnected` handler (line 170) nulling both the
handle and the marker - it can only fire for a launched browser. -/
def launchStep (s : LaunchState) : LaunchEvent → LaunchState
  | .call => (initializeBrowserCall s).1
  | .resolveLaunch =>
    match s.browserLaunchPromise with
    | some p =>
      if pendingLaunch s p then
        { s with promises := settle s.promises p, browserSet := true }
      else s
    | none => s
  | .rejectLaunch =>
    match s.browserLaunchPromise with
    | some p =>
      if pendingLaunch s p then
        { s with promises := settle s.promises p, browserLaunchPromise := none }
      else s
    | none => s
  | .disconnect =>
    if s.browserSet then { s with browserSet := false, browserLaunchPromise := none } else s

def launchRun (events : List LaunchEvent) : LaunchState := events.foldl launchStep {}

theorem filter_pending_nil (l : List (Nat × Bool)) (h : ∀ q ∈ l, q.2 = true) :
    l.filter (fun q => !q.2) = [] := by
  rw [List.filter_eq_nil_iff]
  intro q hq
  rw [h q hq]
  exact fun hc => Bool.noConfusion hc

theorem settle_all_settled (l : List (Nat × Bool)) (p : Nat)
    (h : ∀ q ∈ l, q.2 = false → q.1 = p) : ∀ q ∈ settle l p, q.2 = true := by
  intro q hq
  simp only [settle, List.mem_map] at hq
  obtain ⟨r, hr, hfr⟩ := hq
  by_cases hid : (r.1 == p) = true
  · rw [if_pos hid] at hfr
    rw [← hfr]
  · rw [if_neg hid] at hfr
    subst hfr
    cases hq2 : r.2 with
    | true => rfl
    | false => exact absurd (h r hr hq2) (by simpa using hid)

theorem settle_keys (l : List (Nat × Bool)) (p : Nat) :
    (settle l p).map Prod.fst = l.map Prod.fst := by
  induction l with
  | nil => rfl
  | cons q rest ih =>
    simp only [settle, List.map_cons] at ih ⊢
    rw [ih]
    by_cases hid : (q.1 == p) = true
    · rw [if_pos hid]
    · rw [if_neg hid]

theorem mem_settle_key (l : List (Nat × Bool)) (p : Nat) (q : Nat × Bool)
    (hq : q ∈ settle l p) : ∃ r ∈ l, r.1 = q.1 := by
  simp only [settle, List.mem_map] at hq
  obtain ⟨r, hr, hfr⟩ := hq
  refine ⟨r, hr, ?_⟩
  by_cases hid : (r.1 == p) = true
  · rw [if_pos hid] at hfr
    rw [← hfr]
  · rw [if_neg hid] at hfr
    rw [hfr]

theorem pendingCount_pos (l : List (Nat × Bool)) (q : Nat × Bool) (hq : q ∈ l)
    (h2 : q.2 = false) : 0 < (l.filter (fun r => !r.2)).length :=
  List.length_pos_of_mem (List.mem_filter.mpr ⟨hq, by rw [h2]; rfl⟩)

/-- Inductive invariant of the launch subsystem: promise ids are unique
and fresh, at most one launch is in flight, every in-flight launch is
the memoized one, a stored browser means nothing is in flight, and a
cleared marker means no browser is stored. -/
def LaunchInv (s : LaunchState) : Prop :=
  (s.promises.map Prod.fst).Nodup ∧
  inFlightCount s ≤ 1 ∧
  (∀ q ∈ s.promises, q.2 = false → s.browserLaunchPromise = some q.1) ∧
  (s.browserSet = true → inFlightCount s = 0) ∧
  (s.browserLaunchPromise = none → s.browserSet = false) ∧
  (∀ q ∈ s.promises, q.1 < s.nextPromise)

theorem launchStep_inv (s : LaunchState) (e : LaunchEvent) (h : LaunchInv s) :
    LaunchInv (launchStep s e) := by
  obtain ⟨h0, h1, h2, h3, h4, h5⟩ := h
  cases e with
  | call =>
    show LaunchInv (initializeBrowserCall s).1
    cases hm : s.browserLaunchPromise with
    | some p =>
      simp only [initializeBrowserCall, hm]
      exact ⟨h0, h1, h2, h3, h4, h5⟩
    | none =>
      have hnopend : ∀ q ∈ s.promises, q.2 = true := by
        intro q hq
        cases hq2 : q.2 with
        | true => rfl
        | false =>
          have := h2 q hq hq2
          rw [hm] at this
          exact Option.noConfusion this
      have hfil : s.promises.filter (fun q => !q.2) = [] := filter_pending_nil _ hnopend
      simp only [initializeBrowserCall, hm]
      refine ⟨?_, ?_, ?_, ?_, ?_, ?_⟩
      · show ((s.promises ++ [(s.nextPromise, false)]).map Prod.fst).Nodup
        rw [List.map_append, List.nodup_append]
        refine ⟨h0, by simp, ?_⟩
        intro a ha hb
        simp only [List.map_cons, List.map_nil, List.mem_singleton] at hb
        subst hb
        simp only [List.mem_map] at ha
        obtain ⟨q, hq, hqa⟩ := ha
        exact absurd (hqa ▸ h5 q hq) (lt_irrefl _)
      · show ((s.promises ++ [(s.nextPromise, false)]).filter (fun q => !q.2)).length ≤ 1
        rw [List.filter_append, hfil]
        simp
      · intro q hq hq2
        rcases List.mem_append.mp hq with hql | hqx
        · rw [hnopend q hql] at hq2
          exact Bool.noConfusion hq2
        · simp only [List.mem_singleton] at hqx
          subst hqx
          rfl
      · intro hbs
        rw [h4 hm] at hbs
        exact Bool.noConfusion hbs
      · intro hmk
        exact Option.noConfusion hmk
      · intro q hq
        rcases List.mem_append.mp hq with hql | hqx
        · show q.1 < s.nextPromise + 1
          exact lt_trans (h5 q hql) (Nat.lt_succ_self _)
        · simp only [List.mem_singleton] at hqx
          subst hqx
          exact Nat.lt_succ_self _
  | resolveLaunch =>
    cases hm : s.browserLaunchPromise with
    | none =>
      simp only [launchStep, hm]
      exact ⟨h0, h1, h2, h3, h4, h5⟩
    | some p =>
      simp only [launchStep, hm]
      split
      · have hall : ∀ q ∈ s.promises, q.2 = false → q.1 = p := by
          intro q hq hq2
          have hh := h2 q hq hq2
          rw [hm] at hh
          injection hh with hh
          exact hh.symm
        have hset := settle_all_settled s.promises p hall
        have hfil : (settle s.promises p).filter (fun q => !q.2) = [] :=
          filter_pending_nil _ hset
        refine ⟨?_, ?_, ?_, ?_, ?_, ?_⟩
        · show ((settle s.promises p).map Prod.fst).Nodup
          rw [settle_keys]
          exact h0
        · show ((settle s.promises p).filter (fun q => !q.2)).length ≤ 1
          rw [hfil]
          exact Nat.zero_le 1
        · intro q hq hq2
          rw [hset q hq] at hq2
          exact Bool.noConfusion hq2
        · intro _
          show ((settle s.promises p).filter (fun q => !q.2)).length = 0
          rw [hfil]
          rfl
        · intro hmk
          exact Option.noConfusion hmk
        · intro q hq
          obtain ⟨r, hr, hkey⟩ := mem_settle_key s.promises p q hq
          exact hkey ▸ h5 r hr
      · exact ⟨h0, h1, h2, h3, h4, h5⟩
  | rejectLaunch =>
    cases hm : s.browserLaunchPromise with
    | none =>
      simp only [launchStep, hm]
      exact ⟨h0, h1, h2, h3, h4, h5⟩
    | some p =>
      simp only [launchStep, hm]
      split
      · next hpend =>
        have hall : ∀ q ∈ s.promises, q.2 = false → q.1 = p := by
          intro q hq hq2
          have hh := h2 q hq hq2
          rw [hm] at hh
          injection hh with hh
          exact hh.symm
        have hset := settle_all_settled s.promises p hall
        have hfil : (settle s.promises p).filter (fun q => !q.2) = [] :=
          filter_pending_nil _ hset
        have hbs : s.browserSet = false := by
          cases hb : s.browserSet with
          | false => rfl
          | true =>
            simp only [pendingLaunch, List.any_eq_true] at hpend
            obtain ⟨r, hr, hrp⟩ := hpend
            simp only [Bool.and_eq_true, Bool.not_eq_true'] at hrp
            have hpos := pendingCount_pos s.promises r hr hrp.2
            have hz := h3 hb
            rw [inFlightCount] at hz
            omega
        refine ⟨?_, ?_, ?_, ?_, ?_, ?_⟩
        · show ((settle s.promises p).map Prod.fst).Nodup
          rw [settle_keys]
          exact h0
        · show ((settle s.promises p).filter (fun q => !q.2)).length ≤ 1
          rw [hfil]
          exact Nat.zero_le 1
        · intro q hq hq2
          rw [hset q hq] at hq2
          exact Bool.noConfusion hq2
        · intro _
          show ((settle s.promises p).filter (fun q => !q.2)).length = 0
          rw [hfil]
          rfl
        · intro _
          exact hbs
        · intro q hq
          obtain ⟨r, hr, hkey⟩ := mem_settle_key s.promises p q hq
          exact hkey ▸ h5 r hr
      · exact ⟨h0, h1, h2, h3, h4, h5⟩
  | disconnect =>
    simp only [launchStep]
    split
    · next hbs =>
      have hz := h3 hbs
      refine ⟨h0, h1, ?_, ?_, ?_, h5⟩
      · intro q hq hq2
        have hpos := pendingCount_pos s.promises q hq hq2
        rw [inFlightCount] at hz
        omega
      · intro hc
        exact Bool.noConfusion hc
      · intro _
        rfl
    · exact ⟨h0, h1, h2, h3, h4, h5⟩

theorem launchRun_inv (events : List LaunchEvent) : LaunchInv (launchRun events) := by
  suffices h : ∀ (l : List LaunchEvent) (s : LaunchState), LaunchInv s →
      LaunchInv (l.foldl launchStep s) by
    refine h events {} ?_
    refine ⟨by simp, by simp [inFlightCount], ?_, fun _ => rfl, fun _ => rfl, ?_⟩
    · intro q hq
      exact absurd hq (List.not_mem_nil q)
    · intro q hq
      exact absurd hq (List.not_mem_nil q)
  intro l
  induction l with
  | nil => exact fun s hs => hs
  | cons e rest ih => exact fun s hs => ih _ (launchStep_inv s e hs)

/-- C5: while a launch is in flight every `initializeBrowser` call
returns the very same memoized pending promise and starts no second
launch; at most one launch is ever in progress; and the pending-launch
marker still points at any in-flight launch (it is cleared only once the
launch has resolved or failed). -/
theorem c5_single_flight_launch (events : List LaunchEvent) (p : Nat)
    (hm : (launchRun events).browserLaunchPromise = some p) :
    inFlightCount (launchRun events) ≤ 1 ∧
    initializeBrowserCall (launchRun events) = (launchRun events, p) ∧
    (∀ q, pendingLaunch (launchRun events) q = true →
      (launchRun events).browserLaunchPromise = some q) := by
  have hinv := launchRun_inv events
  refine ⟨hinv.2.1, ?_, ?_⟩
  · simp [initializeBrowserCall, hm]
  · intro q hq
    simp only [pendingLaunch, List.any_eq_true] at hq
    obtain ⟨r, hr, hrq⟩ := hq
    simp only [Bool.and_eq_true, beq_iff_eq, Bool.not_eq_true'] at hrq
    rw [hinv.2.2.1 r hr hrq.2, hrq.1]

/-- Witness for C5 at a concrete input: after one `initializeBrowser`
call, promise 0 is the memoized launch and a second call returns it. -/
theorem c5_witness :
    (launchRun [LaunchEvent.call]).browserLaunchPromise = some 0 ∧
    initializeBrowserCall (launchRun [LaunchEvent.call]) = (launchRun [LaunchEvent.call], 0) :=
  ⟨by decide, (c5_single_flight_launch [LaunchEvent.call] 0 (by decide)).2.1⟩

/-! ## The capacity wait loop (`getAvailableTab`, lines 241-262) -/

/-- `const timeout = 30000` (line 242). -/
def acquireTimeoutMs : Nat := 30000

/-- `setTimeout(resolve, 100)` (line 254). -/
def pollIntervalMs : Nat := 100

/-- `throw new Error(...)` at line 262. -/
def poolExhaustedMsg : String := "No available tabs - maximum concurrent screenshots reached"

/-- What the wait loop hands back on success: an idle tab to reuse, or
the decision to create a new tab because capacity freed up. -/
inductive WaitOutcome where
  | reused (id : Nat) (t : Tab)
  | create
deriving Repr, DecidableEq

/-- The wait loop of `getAvailableTab` (lines 245-260), entered with the
pool at capacity.  Other tasks mutate the pool during the sleeps, so the
pool is sampled from an environment `env`: sample `2*k` is what the
`k`-th idle scan sees, sample `2*k+1` what the `k`-th post-sleep
capacity re-check sees.  Each iteration costs one `pollIntervalMs`
sleep; the loop runs while the elapsed time is below `acquireTimeoutMs`
and otherwise throws the pool-exhausted error.  The second component is
the elapsed time on return. -/
def waitForTabAux (env : Nat → List (Nat × Tab)) (maxTabs : Nat) (k elapsed : Nat) :
    (Except String WaitOutcome) × Nat :=
  if _h : elapsed < acquireTimeoutMs then
    match findIdleTab (env (2 * k)) with
    | some (id, t) => (.ok (.reused id t), elapsed)
    | none =>
      if (env (2 * k + 1)).length < maxTabs then (.ok .create, elapsed + pollIntervalMs)
      else waitForTabAux env maxTabs (k + 1) (elapsed + pollIntervalMs)
  else (.error poolExhaustedMsg, elapsed)
termination_by acquireTimeoutMs - elapsed
decreasing_by
  have hp : 0 < pollIntervalMs := by decide
  omega

def waitForTab (env : Nat → List (Nat × Tab)) (maxTabs : Nat) :
    (Except String WaitOutcome) × Nat :=
  waitForTabAux env maxTabs 0 0

theorem waitForTabAux_exhausted (env : Nat → List (Nat × Tab)) (maxTabs : Nat)
    (hidle : ∀ k, findIdleTab (env k) = none)
    (hcap : ∀ k, maxTabs ≤ (env k).length) (n : Nat) :
    ∀ k elapsed, acquireTimeoutMs - elapsed ≤ n →
      elapsed < acquireTimeoutMs + pollIntervalMs →
      (waitForTabAux env maxTabs k elapsed).1 = .error poolExhaustedMsg ∧
      acquireTimeoutMs ≤ (waitForTabAux env maxTabs k elapsed).2 ∧
      (waitForTabAux env maxTabs k elapsed).2 < acquireTimeoutMs + pollIntervalMs := by
  induction n with
  | zero =>
    intro k elapsed hle hlt
    have hge : ¬ elapsed < acquireTimeoutMs := by omega
    rw [waitForTabAux, dif_neg hge]
    exact ⟨rfl, by omega, hlt⟩
  | succ n ih =>
    intro k elapsed hle hlt
    by_cases hel : elapsed < acquireTimeoutMs
    · have hnc : ¬ (env (2 * k + 1)).length < maxTabs := by
        have := hcap (2 * k + 1)
        omega
      have hp : 0 < pollIntervalMs := by decide
      rw [waitForTabAux, dif_pos hel, hidle (2 * k)]
      simp only [if_neg hnc]
      exact ih (k + 1) (elapsed + pollIntervalMs) (by omega) (by omega)
    · rw [waitForTabAux, dif_neg hel]
      exact ⟨rfl, by omega, hlt⟩

/-- C6: when the pool stays at capacity with no idle tab, the acquire
wait loop polls at the fixed 100 ms interval, re-checking an idle tab
and freed capacity on every iteration, and after the 30-second timeout
fails with the pool-exhausted error; the total waited time equals the
timeout up to one poll interval, and the loop itself never retries after
throwing. -/
theorem c6_wait_times_out_pool_exhausted (env : Nat → List (Nat × Tab)) (maxTabs : Nat)
    (hidle : ∀ k, findIdleTab (env k) = none)
    (hcap : ∀ k, maxTabs ≤ (env k).length) :
    acquireTimeoutMs = 30000 ∧ pollIntervalMs = 100 ∧
    (waitForTab env maxTabs).1 = .error poolExhaustedMsg ∧
    acquireTimeoutMs ≤ (waitForTab env maxTabs).2 ∧
    (waitForTab env maxTabs).2 < acquireTimeoutMs + pollIntervalMs := by
  have hp : 0 < pollIntervalMs := by decide
  have h := waitForTabAux_exhausted env maxTabs hidle hcap acquireTimeoutMs 0 0
    (by omega) (by omega)
  exact ⟨rfl, rfl, h.1, h.2.1, h.2.2⟩

/-- Witness for C6 at a concrete input: a single permanently busy tab in
a pool of capacity one. -/
theorem c6_witness :
    (waitForTab (fun _ => [(1, Tab.mk 0 false "https://example.com")]) 1).1 =
      Except.error poolExhaustedMsg :=
  (c6_wait_times_out_pool_exhausted (fun _ => [(1, Tab.mk 0 false "https://example.com")]) 1
    (fun _ => rfl) (fun _ => Nat.le_refl 1)).2.2.1

/-! ## Interleaved acquires: the check-capacity-then-act sequence

`getAvailableTab` checks `this.tabs.size < this.maxTabs` (line 237) and
`createNewTab` registers the new tab with `this.tabs.set(tabId, page)`
(line 277), but `await this.browser.newPage()` (line 271) suspends in
between, so two concurrent acquires interleave there.  A task that finds
the pool at capacity instead enters the wait loop (lines 245-260): each
iteration scans for an idle tab (`!tab.isClosed() && tab.url() ===
'about:blank'`, lines 247-251) and returns it with NO state change and
no in-use marking, or re-checks capacity after the sleep (lines
257-259).  The borrower navigates the received tab only later
(`page.goto`, line 536) - behind further awaits (`setViewport` line 524
and a random delay line 533) - so between hand-out and navigation the
tab still reads `about:blank`. -/

/-- Progress of one acquire task through its atomic segments: the
synchronous prefix up to `++this.tabIdCounter` (`start`, or the
capacity re-check of a `waiting` task), the registration after the
`newPage` await (`midCreate` to `gotNew`), the idle scan of a `waiting`
task (to `gotReused`), and the borrower finally navigating the received
tab (`gotNew`/`gotReused` to `usingNew`/`usingReused`). -/
inductive TaskState where
  | start
  | waiting
  | midCreate (tabId : Nat)
  | gotNew (tabId : Nat)
  | gotReused (tabId : Nat)
  | usingNew (tabId : Nat)
  | usingReused (tabId : Nat)
deriving Repr, DecidableEq

/-- The id a task obtained through the creation path (`createNewTab`). -/
def createdId : TaskState → Option Nat
  | .midCreate id => some id
  | .gotNew id => some id
  | .usingNew id => some id
  | _ => none

/-- Run the next atomic segment of one acquire task against the shared
service state. -/
def stepTask (s : SvcState) : TaskState → SvcState × TaskState
  | .start =>
    let s1 := cleanupClosedTabs s
    if s1.tabs.length < s1.maxTabs then
      let s2 := ensureBrowser s1
      let tabId := s2.tabIdCounter + 1
      ({ s2 with tabIdCounter := tabId }, .midCreate tabId)
    else (s1, .waiting)
  | .waiting =>
    match findIdleTab s.tabs with
    | some (id, _) => (s, .gotReused id)
    | none =>
      if s.tabs.length < s.maxTabs then
        let s2 := ensureBrowser s
        let tabId := s2.tabIdCounter + 1
        ({ s2 with tabIdCounter := tabId }, .midCreate tabId)
      else (s, .waiting)
  | .midCreate tabId =>
    let t : Tab := { bgen := s.browser.getD 0, closed := false, url := "about:blank" }
    let tabs := s.tabs ++ [(tabId, t)]
    ({ s with
        tabs := tabs,
        stats := { s.stats with
          tabsCreated := s.stats.tabsCreated + 1,
          activeTabsCount := tabs.length } },
     .gotNew tabId)
  | .gotNew tabId => (setTabUrl s tabId "https://target.example", .usingNew tabId)
  | .gotReused tabId => (setTabUrl s tabId "https://target.example", .usingReused tabId)
  | .usingNew tabId => (s, .usingNew tabId)
  | .usingReused tabId => (s, .usingReused tabId)

/-- Interleave two acquire tasks: `false` steps the first task, `true`
the second. -/
def schedStep (c : SvcState × TaskState × TaskState) (who : Bool) :
    SvcState × TaskState × TaskState :=
  if who then
    let r := stepTask c.1 c.2.2
    (r.1, c.2.1, r.2)
  else
    let r := stepTask c.1 c.2.1
    (r.1, r.2, c.2.2)

def runSched (init : SvcState) (sched : List Bool) : SvcState × TaskState × TaskState :=
  sched.foldl schedStep (init, .start, .start)

/-- C2 counterexample, both conjuncts of the claim at concrete inputs.
First: with `maxTabs = 1` and an empty pool (one free slot), the
schedule running both capacity checks before either registration makes
both concurrent acquires create and register a tab - the
check-capacity-then-act sequence is not mutually exclusive and the pool
ends with two tabs against a capacity of one.  Second: with the single
tab of a saturated pool idle at `about:blank`, both acquires' idle
scans return tab 1 before either borrower has navigated it, so two
concurrent acquires receive the same tab identifier and both hold it. -/
theorem c2_counterexample :
    ((runSched (initState 1) [false, true, false, true]).2.1 = TaskState.gotNew 1 ∧
     (runSched (initState 1) [false, true, false, true]).2.2 = TaskState.gotNew 2 ∧
     (runSched (initState 1) [false, true, false, true]).1.tabs.length = 2 ∧
     (runSched (initState 1) [false, true, false, true]).1.maxTabs = 1) ∧
    ((runSched (runOps 1 [PoolOp.acquire]) [false, true, false, true]).2.1 =
        TaskState.gotReused 1 ∧
     (runSched (runOps 1 [PoolOp.acquire]) [false, true, false, true]).2.2 =
        TaskState.gotReused 1) := by
  decide

theorem ensureBrowser_tabIdCounter (s : SvcState) :
    (ensureBrowser s).tabIdCounter = s.tabIdCounter := by
  cases hb : s.browser <;> simp [ensureBrowser, hb]

theorem stepTask_facts (s : SvcState) (ts : TaskState) :
    s.tabIdCounter ≤ (stepTask s ts).1.tabIdCounter ∧
    (∀ i, createdId (stepTask s ts).2 = some i →
      createdId ts = some i ∨
        (s.tabIdCounter < i ∧ i ≤ (stepTask s ts).1.tabIdCounter)) := by
  cases ts with
  | start =>
    simp only [stepTask]
    split
    · have ec : (ensureBrowser (cleanupClosedTabs s)).tabIdCounter = s.tabIdCounter :=
        ensureBrowser_tabIdCounter (cleanupClosedTabs s)
      constructor
      · show s.tabIdCounter ≤ (ensureBrowser (cleanupClosedTabs s)).tabIdCounter + 1
        omega
      · intro i hi
        simp only [createdId] at hi
        injection hi with hi
        refine Or.inr ⟨?_, ?_⟩
        · omega
        · show i ≤ (ensureBrowser (cleanupClosedTabs s)).tabIdCounter + 1
          omega
    · constructor
      · exact Nat.le_refl _
      · intro i hi
        simp only [createdId] at hi
        exact Option.noConfusion hi
  | waiting =>
    simp only [stepTask]
    split
    · constructor
      · exact Nat.le_refl _
      · intro i hi
        simp only [createdId] at hi
        exact Option.noConfusion hi
    · split
      · have ec : (ensureBrowser s).tabIdCounter = s.tabIdCounter :=
          ensureBrowser_tabIdCounter s
        constructor
        · show s.tabIdCounter ≤ (ensureBrowser s).tabIdCounter + 1
          omega
        · intro i hi
          simp only [createdId] at hi
          injection hi with hi
          refine Or.inr ⟨?_, ?_⟩
          · omega
          · show i ≤ (ensureBrowser s).tabIdCounter + 1
            omega
      · constructor
        · exact Nat.le_refl _
        · intro i hi
          simp only [createdId] at hi
          exact Option.noConfusion hi
  | midCreate tabId =>
    constructor
    · exact Nat.le_refl _
    · intro i hi
      simp only [createdId] at hi
      injection hi with hi
      exact Or.inl (by rw [hi]; rfl)
  | gotNew tabId =>
    constructor
    · exact Nat.le_refl _
    · intro i hi
      simp only [createdId] at hi
      injection hi with hi
      exact Or.inl (by rw [hi]; rfl)
  | gotReused tabId =>
    constructor
    · exact Nat.le_refl _
    · intro i hi
      simp only [createdId] at hi
      exact Option.noConfusion hi
  | usingNew tabId =>
    constructor
    · exact Nat.le_refl _
    · intro i hi
      exact Or.inl hi
  | usingReused tabId =>
    constructor
    · exact Nat.le_refl _
    · intro i hi
      simp only [createdId] at hi
      exact Option.noConfusion hi

/-- Inductive invariant of two interleaved acquires: every id a task
obtained through the creation path is bounded by the counter, and the
two tasks never obtain the same created id. -/
def ConcInv (c : SvcState × TaskState × TaskState) : Prop :=
  (∀ i, createdId c.2.1 = some i → i ≤ c.1.tabIdCounter) ∧
  (∀ j, createdId c.2.2 = some j → j ≤ c.1.tabIdCounter) ∧
  (∀ i j, createdId c.2.1 = some i → createdId c.2.2 = some j → i ≠ j)

theorem schedStep_inv (c : SvcState × TaskState × TaskState) (who : Bool)
    (h : ConcInv c) : ConcInv (schedStep c who) := by
  obtain ⟨h1, h2, h3⟩ := h
  cases who with
  | false =>
    obtain ⟨fa, fb⟩ := stepTask_facts c.1 c.2.1
    refine ⟨?_, ?_, ?_⟩
    · intro i hi
      rcases fb i hi with hold | ⟨_, hle⟩
      · exact le_trans (h1 i hold) fa
      · exact hle
    · intro j hj
      exact le_trans (h2 j hj) fa
    · intro i j hi hj
      rcases fb i hi with hold | ⟨hgt, _⟩
      · exact h3 i j hold hj
      · have := h2 j hj
        omega
  | true =>
    obtain ⟨fa, fb⟩ := stepTask_facts c.1 c.2.2
    refine ⟨?_, ?_, ?_⟩
    · intro i hi
      exact le_trans (h1 i hi) fa
    · intro j hj
      rcases fb j hj with hold | ⟨_, hle⟩
      · exact le_trans (h2 j hold) fa
      · exact hle
    · intro i j hi hj
      rcases fb j hj with hold | ⟨hgt, _⟩
      · exact h3 i j hi hold
      · have := h1 i hi
        omega

theorem runSched_inv (m : Nat) (sched : List Bool) :
    ConcInv (runSched (initState m) sched) := by
  suffices h : ∀ (l : List Bool) (c : SvcState × TaskState × TaskState),
      ConcInv c → ConcInv (l.foldl schedStep c) by
    refine h sched (initState m, .start, .start) ?_
    refine ⟨?_, ?_, ?_⟩
    · intro i hi
      exact Option.noConfusion hi
    · intro j hj
      exact Option.noConfusion hj
    · intro i j hi _
      exact Option.noConfusion hi
  intro l
  induction l with
  | nil => exact fun c hc => hc
  | cons who rest ih => exact fun c hc => ih _ (schedStep_inv c who hc)

/-- C2 amended: two concurrent acquires that both obtain their tab
through the creation path always receive distinct tab identifiers
(`++this.tabIdCounter` runs in the synchronous segment), under every
interleaving of the two tasks; but, as the counterexample shows,
neither conjunct of the claim holds as stated: with one capacity slot
remaining both acquires can create (the check-capacity-then-act
sequence is not mutually exclusive, and the pool exceeds `maxTabs`),
and the idle scan hands out a tab with no in-use marking while it still
reads `about:blank`, so two concurrent acquires can receive the same
tab identifier and hold it simultaneously. -/
theorem c2_distinct_ids_under_interleaving (m : Nat) (sched : List Bool) (i j : Nat)
    (hA : createdId (runSched (initState m) sched).2.1 = some i)
    (hB : createdId (runSched (initState m) sched).2.2 = some j) :
    i ≠ j := by
  have hinv := runSched_inv m sched
  exact hinv.2.2 i j hA hB

/-- Witness for the amended C2 at a concrete input: the double-create
schedule hands created ids 1 and 2 to the two tasks, and they are
distinct. -/
theorem c2_witness :
    createdId (runSched (initState 1) [false, true, false, true]).2.1 = some 1 ∧
    createdId (runSched (initState 1) [false, true, false, true]).2.2 = some 2 ∧
    (1 : Nat) ≠ 2 :=
  ⟨by decide, by decide,
   c2_distinct_ids_under_interleaving 1 [false, true, false, true] 1 2 (by decide) (by decide)⟩

/-! ## Idle-tab reuse on a saturated pool -/

/-- C8 counterexample: `maxTabs = 2`; tab 1 is used and released, then
tab 2 is used and released; the pool is saturated and an immediate
acquire with no other waiters follows the release of tab 2 - but the
idle scan walks the map in insertion order and returns tab 1, not the
just-released tab 2. -/
theorem c8_counterexample :
    (getAvailableTabStep (runOps 2
      [.acquire, .acquire, .navigate 1 "https://a", .release 1,
       .navigate 2 "https://b", .release 2])).2 =
      AcqResult.reused 1 (Tab.mk 0 false "about:blank") ∧ (1 : Nat) ≠ 2 := by
  decide

/-- C8 amended: when the pool is saturated (`tabs.size = maxTabs`, keys
unique) and the released tab is the only idle tab (every other tab is
open and away from `about:blank`), an immediate acquire reuses exactly
that tab - it neither creates a new tab nor times out. -/
theorem c8_release_then_acquire_reuses (s : SvcState) (tabId : Nat) (t : Tab)
    (hkeys : (s.tabs.map Prod.fst).Nodup)
    (hmem : (tabId, t) ∈ s.tabs)
    (hopen : t.closed = false)
    (hurl : t.url = "about:blank")
    (hothers : ∀ p ∈ s.tabs, p.1 ≠ tabId → p.2.closed = false ∧ p.2.url ≠ "about:blank")
    (hfull : s.tabs.length = s.maxTabs) :
    (getAvailableTabStep s).2 = AcqResult.reused tabId t := by
  have hinj := List.inj_on_of_nodup_map hkeys
  have hall : ∀ p ∈ s.tabs, (!p.2.closed) = true := by
    intro p hp
    by_cases hk : p.1 = tabId
    · have hpe : p = (tabId, t) := hinj hp hmem hk
      rw [hpe]
      show (!t.closed) = true
      rw [hopen]
      rfl
    · rw [(hothers p hp hk).1]
      rfl
  have hclean : (cleanupClosedTabs s).tabs = s.tabs := by
    show s.tabs.filter (fun p => !p.2.closed) = s.tabs
    rw [List.filter_eq_self]
    exact hall
  have hfind : findIdleTab s.tabs = some (tabId, t) := by
    have hex : ∃ x, x ∈ s.tabs ∧ (!x.2.closed && x.2.url == "about:blank") = true := by
      refine ⟨(tabId, t), hmem, ?_⟩
      show (!t.closed && t.url == "about:blank") = true
      rw [hopen, hurl]
      rfl
    have hsome : (s.tabs.find? (fun p => !p.2.closed && p.2.url == "about:blank")).isSome :=
      List.find?_isSome.mpr hex
    cases hfx : s.tabs.find? (fun p => !p.2.closed && p.2.url == "about:blank") with
    | none => rw [hfx] at hsome; exact Bool.noConfusion hsome
    | some x =>
      have hxmem := List.mem_of_find?_eq_some hfx
      have hxpred := List.find?_some hfx
      by_cases hk : x.1 = tabId
      · have hxe : x = (tabId, t) := hinj hxmem hmem hk
        rw [findIdleTab, hfx, hxe]
      · simp only [Bool.and_eq_true, beq_iff_eq] at hxpred
        exact absurd hxpred.2 (hothers x hxmem hk).2
  have hstep : getAvailableTabStep s = (cleanupClosedTabs s, AcqResult.reused tabId t) := by
    simp only [getAvailableTabStep, hclean, cleanup_maxTabs, hfull, lt_irrefl, if_false, hfind]
  rw [hstep]

/-- Witness for the amended C8 at a concrete input: tab 1 is busy, tab 2
was just released; the acquire reuses tab 2. -/
theorem c8_witness :
    (getAvailableTabStep (runOps 2
      [.acquire, .acquire, .navigate 1 "https://a", .navigate 2 "https://b",
       .release 2])).2 = AcqResult.reused 2 (Tab.mk 0 false "about:blank") :=
  c8_release_then_acquire_reuses
    (runOps 2 [.acquire, .acquire, .navigate 1 "https://a", .navigate 2 "https://b",
      .release 2])
    2 (Tab.mk 0 false "about:blank")
    (by decide) (by decide) rfl rfl (by decide) (by decide)

/-! ## URL helpers (`src/utils/helpers.js`)

String primitives are modelled over `List Char` so that every
definition evaluates by kernel reduction. -/

def isPrefixList : List Char → List Char → Bool
  | [], _ => true
  | _ :: _, [] => false
  | c :: pre, d :: l => c == d && isPrefixList pre l

def isSuffixList (suf l : List Char) : Bool := isPrefixList suf.reverse l.reverse

def hasInfix : List Char → List Char → Bool
  | [], sub => sub.isEmpty
  | c :: rest, sub => isPrefixList sub (c :: rest) || hasInfix rest sub

def lowerChars (l : List Char) : List Char := l.map Char.toLower

/-- Whitespace removed by `String.prototype.trim`. -/
def isJsSpace (c : Char) : Bool :=
  c == ' ' || c == '\t' || c == '\n' || c == '\r' || c == '\x0b' || c == '\x0c'

def trimChars (l : List Char) : List Char :=
  ((l.dropWhile isJsSpace).reverse.dropWhile isJsSpace).reverse

/-- Model of `url.trim()`. -/
def trimString (url : String) : String := String.mk (trimChars url.toList)

def splitOnCharAux (sep : Char) : List Char → List Char → List (List Char)
  | acc, [] => [acc.reverse]
  | acc, c :: rest =>
    if c == sep then acc.reverse :: splitOnCharAux sep [] rest
    else splitOnCharAux sep (c :: acc) rest

/-- Model of `String.prototype.split` with a one-character separator. -/
def splitOnChar (sep : Char) (l : List Char) : List (List Char) := splitOnCharAux sep [] l

/-- The regex `/^https?:\/\//i` of `formatUrl` (helpers line 17). -/
def startsWithHttpScheme (url : String) : Bool :=
  isPrefixList "http://".toList (lowerChars url.toList) ||
  isPrefixList "https://".toList (lowerChars url.toList)

/-- `formatUrl` (helpers lines 8-23): reject a missing/empty url (the JS
throw is `none`), trim, keep urls already carrying an explicit
`http(s)://`, and default everything else to `https://`. -/
def formatUrl (url : String) : Option String :=
  if url = "" then none
  else
    let u := trimString url
    if startsWithHttpScheme u then some u else some ("https://" ++ u)

def isSchemeStartChar (c : Char) : Bool := c.isAlpha

def isSchemeChar (c : Char) : Bool := c.isAlpha || c.isDigit || c == '+' || c == '-' || c == '.'

def schemeAux : List Char → List Char → Option (List Char × List Char)
  | _, [] => none
  | acc, c :: rest =>
    if c == ':' then some (acc, rest)
    else if isSchemeChar c then schemeAux (acc ++ [c]) rest
    else none

/-- Split a url string into scheme characters and the remainder after
the colon; `none` when no syntactically valid scheme prefix exists. -/
def parseSchemeChars : List Char → Option (List Char × List Char)
  | [] => none
  | c :: cs => if isSchemeStartChar c then schemeAux [c] cs else none

/-- Model of the platform WHATWG `new URL(url).protocol` used by
`validateUrl`: an absolute url parses only when it starts with a valid
scheme (`ALPHA (ALPHA|DIGIT|+|-|.)* :`); the reported protocol is the
lowercased scheme with a trailing colon.  `none` models the constructor
throwing. -/
def urlProtocol (url : String) : Option String :=
  match parseSchemeChars url.toList with
  | some (sch, _) => some (String.mk (lowerChars sch) ++ ":")
  | none => none

def hostChars (l : List Char) : List Char :=
  l.takeWhile (fun c => !(c == '/' || c == ':' || c == '?' || c == '#'))

/-- Model of `new URL(url).hostname` for the special http(s) schemes:
after the scheme, slashes are skipped and the host runs to the first
delimiter, lowercased; an empty host is a parse failure. -/
def urlHostname (url : String) : Option String :=
  match parseSchemeChars url.toList with
  | none => none
  | some (_, rest) =>
    let host := hostChars (rest.dropWhile (fun c => c == '/'))
    if host.isEmpty then none else some (String.mk (lowerChars host))

/-- Second octet values matched by `/^172\.(1[6-9]|2\d|3[01])\./`. -/
def private172Octets : List (List Char) :=
  ["16".toList, "17".toList, "18".toList, "19".toList, "20".toList, "21".toList,
   "22".toList, "23".toList, "24".toList, "25".toList, "26".toList, "27".toList,
   "28".toList, "29".toList, "30".toList, "31".toList]

def is172Private (host : String) : Bool :=
  match splitOnChar '.' host.toList with
  | first :: b :: _ :: _ => first == "172".toList && private172Octets.contains b
  | _ => false

/-- The `localhostPatterns` checks of `validateUrl` (helpers lines
49-68). -/
def isPrivateHost (host : String) : Bool :=
  host == "localhost" || host == "127.0.0.1" || host == "0.0.0.0" || host == "::1" ||
  isPrefixList "10.".toList host.toList || is172Private host ||
  isPrefixList "192.168.".toList host.toList || isPrefixList "169.254.".toList host.toList

/-- `validateUrl` (helpers lines 30-75): parse with `new URL` (any throw
yields false), require an http(s) protocol, then reject blocked domains
(`BLOCKED_DOMAINS` env, passed explicitly here) and private/localhost
hosts. -/
def validateUrl (blockedDomains : List String) (url : String) : Bool :=
  match urlProtocol url with
  | none => false
  | some proto =>
    if !(proto == "http:" || proto == "https:") then false
    else
      match urlHostname url with
      | none => false
      | some host =>
        if blockedDomains.any
            (fun d => host == d || isSuffixList ("." ++ d).toList host.toList) then false
        else if isPrivateHost host then false
        else true

/-- The url has a parseable scheme and it is http or https. -/
def hasHttpScheme (url : String) : Bool :=
  match urlProtocol url with
  | some p => p == "http:" || p == "https:"
  | none => false

/-! ## `takeScreenshot` (service lines 486-656) -/

inductive NavOutcome where
  | ok
  | blocked
  | navError (msg : String)
deriving Repr, DecidableEq

def invalidUrlMsg : String := "Invalid URL provided"

def blockedMsg : String := "Access denied - possible bot detection"

def navFailMsg : NavOutcome → String
  | .ok => ""
  | .blocked => blockedMsg
  | .navError msg => msg

def bumpTotal (s : SvcState) : SvcState :=
  { s with stats := { s.stats with totalRequests := s.stats.totalRequests + 1 } }

def bumpFailed (s : SvcState) : SvcState :=
  { s with stats := { s.stats with failedRequests := s.stats.failedRequests + 1 } }

def bumpBlocked (s : SvcState) : SvcState :=
  { s with stats := { s.stats with blockedRequests := s.stats.blockedRequests + 1 } }

def bumpSuccess (s : SvcState) : SvcState :=
  { s with stats := { s.stats with successfulRequests := s.stats.successfulRequests + 1 } }

/-- The `catch` block of `takeScreenshot` (lines 645-655): count the
failed request, close the acquired tab when one was acquired, rethrow
the error. -/
def screenshotCatch (s : SvcState) (tabInfo : Option Nat) (msg : String) :
    SvcState × Except String Unit :=
  let s1 := bumpFailed s
  match tabInfo with
  | some tabId => (closeTab s1 tabId, .error msg)
  | none => (s1, .error msg)

/-- `takeScreenshot` after a tab has been acquired (lines 516-655): the
page navigates to the formatted url, then the environment decides the
outcome: 403-blocked (line 542), a navigation/processing error, or
success - which navigates the page back to `about:blank` (line 609) and
counts the success. -/
def afterAcquire (s : SvcState) (tabId : Nat) (fUrl : String) (out : NavOutcome) :
    SvcState × Except String Unit :=
  let sNav := setTabUrl s tabId fUrl
  match out with
  | .ok => (bumpSuccess (releaseTab sNav tabId), .ok ())
  | .blocked => screenshotCatch (bumpBlocked sNav) (some tabId) blockedMsg
  | .navError msg => screenshotCatch sNav (some tabId) msg

/-- `takeScreenshot` (lines 486-656): count the request, validate the
RAW input url (line 495) strictly before the protocol-defaulting
`formatUrl` (line 499), acquire a tab, then run the navigation outcome.
An exhausted pool is the thrown error of `getAvailableTab` line 262,
reaching the catch with no tab acquired. -/
def takeScreenshotModel (blockedDomains : List String) (s : SvcState) (url : String)
    (out : NavOutcome) : SvcState × Except String Unit :=
  let s1 := bumpTotal s
  if !(validateUrl blockedDomains url) then
    screenshotCatch s1 none invalidUrlMsg
  else
    let fUrl := (formatUrl url).getD ""
    match getAvailableTabStep s1 with
    | (s2, .created tabId _) => afterAcquire s2 tabId fUrl out
    | (s2, .reused tabId _) => afterAcquire s2 tabId fUrl out
    | (s2, .exhausted) => screenshotCatch s2 none poolExhaustedMsg

theorem validateUrl_false_of_not_http (blockedDomains : List String) (url : String)
    (h : hasHttpScheme url = false) : validateUrl blockedDomains url = false := by
  cases hp : urlProtocol url with
  | none => simp [validateUrl, hp]
  | some p =>
    have hph : (p == "http:" || p == "https:") = false := by
      unfold hasHttpScheme at h
      rw [hp] at h
      exact h
    simp only [validateUrl, hp, hph]
    rfl

/-- C10: an input url whose scheme is not http(s) - for example
`example.com`, which the URL parser rejects outright - makes
`takeScreenshot` throw the invalid-URL error and count a failed request
(and a total request), leaving the pool untouched, even though
`formatUrl` would have defaulted the very same input to
`https://<input>`: validation of the raw input runs strictly before the
protocol-defaulting formatting. -/
theorem c10_unschemed_url_rejected_before_formatting (blockedDomains : List String)
    (s : SvcState) (url : String) (out : NavOutcome)
    (h1 : hasHttpScheme url = false)
    (h2 : url ≠ "")
    (h3 : startsWithHttpScheme (trimString url) = false) :
    validateUrl blockedDomains url = false ∧
    (takeScreenshotModel blockedDomains s url out).2 = .error invalidUrlMsg ∧
    (takeScreenshotModel blockedDomains s url out).1.stats.failedRequests =
      s.stats.failedRequests + 1 ∧
    (takeScreenshotModel blockedDomains s url out).1.stats.totalRequests =
      s.stats.totalRequests + 1 ∧
    (takeScreenshotModel blockedDomains s url out).1.tabs = s.tabs ∧
    formatUrl url = some ("https://" ++ trimString url) := by
  have hv := validateUrl_false_of_not_http blockedDomains url h1
  have hmodel : takeScreenshotModel blockedDomains s url out =
      (bumpFailed (bumpTotal s), .error invalidUrlMsg) := by
    simp [takeScreenshotModel, hv, screenshotCatch]
  refine ⟨hv, ?_, ?_, ?_, ?_, ?_⟩
  · rw [hmodel]
  · rw [hmodel]
    rfl
  · rw [hmodel]
    rfl
  · rw [hmodel]
    rfl
  · rw [formatUrl, if_neg h2]
    simp only [h3, Bool.false_eq_true, if_false]

/-- Witness for C10 at the concrete input `example.com`. -/
theorem c10_witness :
    hasHttpScheme "example.com" = false ∧
    validateUrl [] "example.com" = false ∧
    (takeScreenshotModel [] (initState 20) "example.com" NavOutcome.ok).2 =
      .error invalidUrlMsg ∧
    formatUrl "example.com" = some ("https://" ++ trimString "example.com") := by
  have h := c10_unschemed_url_rejected_before_formatting [] (initState 20) "example.com"
    NavOutcome.ok (by decide) (by decide) (by decide)
  exact ⟨by decide, h.1, h.2.1, h.2.2.2.2.2⟩

/-! ## The HTTP route's status mapping (`src/routes/screenshot.js`) -/

/-- JS `String.prototype.includes`. -/
def includesSub (s sub : String) : Bool := hasInfix s.toList sub.toList

/-- The status chosen by the screenshot route's catch block (routes
lines 65-66): 400 for messages containing `Invalid URL`, 429 for
messages containing `Too many`, 500 otherwise. -/
def routeStatusForError (msg : String) : Nat :=
  if includesSub msg "Invalid URL" then 400
  else if includesSub msg "Too many" then 429
  else 500

/-- A saturated one-tab pool whose only tab is busy. -/
def fullBusyPool : SvcState :=
  { initState 1 with
      browser := some 0, nextGen := 1, tabIdCounter := 1,
      tabs := [(1, Tab.mk 0 false "https://busy.example")] }

/-- C9 (evidence of the divergence): a pool-exhausted `takeScreenshot`
propagates the message `No available tabs - maximum concurrent
screenshots reached`, which contains neither `Invalid URL` nor
`Too many`, so the screenshot route answers 500 - not the 429
capacity/backpressure status the claim states.  The route's 429 branch
fires only for messages containing `Too many`, which no service error
carries. -/
theorem c9_pool_exhausted_returns_500 :
    (takeScreenshotModel [] fullBusyPool "https://example.com" NavOutcome.ok).2 =
      .error poolExhaustedMsg ∧
    includesSub poolExhaustedMsg "Too many" = false ∧
    routeStatusForError poolExhaustedMsg = 500 ∧
    routeStatusForError poolExhaustedMsg ≠ 429 := by
  refine ⟨rfl, by decide, by decide, by decide⟩

/-! ## C7: failures after acquisition discard exactly the borrowed tab -/

theorem ensureBrowser_stats (s : SvcState) : (ensureBrowser s).stats = s.stats := by
  cases hb : s.browser <;> simp [ensureBrowser, hb]

theorem getAvailableTabStep_failedRequests (s : SvcState) :
    (getAvailableTabStep s).1.stats.failedRequests = s.stats.failedRequests := by
  simp only [getAvailableTabStep]
  split
  · show (createNewTab (cleanupClosedTabs s)).1.stats.failedRequests = _
    simp only [createNewTab]
    show (ensureBrowser (cleanupClosedTabs s)).stats.failedRequests = _
    rw [ensureBrowser_stats]
    rfl
  · split <;> rfl

theorem closeTab_failedRequests (s : SvcState) (tabId : Nat) :
    (closeTab s tabId).stats.failedRequests = s.stats.failedRequests := by
  unfold closeTab
  split
  · split <;> rfl
  · rfl

theorem closeTab_tabs_of_find? (s : SvcState) (tabId : Nat) (pr : Nat × Tab)
    (hf : s.tabs.find? (fun p => p.1 == tabId) = some pr) (hc : pr.2.closed = false) :
    (closeTab s tabId).tabs = s.tabs.filter (fun p => p.1 != tabId) := by
  simp [closeTab, hf, hc]

theorem find?_append_of_none {α : Type} (p : α → Bool) (l1 l2 : List α)
    (h : l1.find? p = none) : (l1 ++ l2).find? p = l2.find? p := by
  induction l1 with
  | nil => rfl
  | cons a rest ih =>
    cases hpa : p a with
    | true =>
      rw [List.find?_cons, hpa] at h
      exact Option.noConfusion h
    | false =>
      rw [List.find?_cons, hpa] at h
      rw [List.cons_append, List.find?_cons, hpa]
      exact ih h

theorem find?_key_of_mem_nodup (l : List (Nat × Tab)) (hnd : (l.map Prod.fst).Nodup)
    (tabId : Nat) (t : Tab) (hm : (tabId, t) ∈ l) :
    l.find? (fun p => p.1 == tabId) = some (tabId, t) := by
  have hex : ∃ x, x ∈ l ∧ (x.1 == tabId) = true := ⟨(tabId, t), hm, by simp⟩
  have hsome := List.find?_isSome.mpr hex
  cases hfx : l.find? (fun p => p.1 == tabId) with
  | none => rw [hfx] at hsome; exact Bool.noConfusion hsome
  | some x =>
    have hxm := List.mem_of_find?_eq_some hfx
    have hxp := List.find?_some hfx
    simp only [beq_iff_eq] at hxp
    have hxe : x = (tabId, t) := List.inj_on_of_nodup_map hnd hxm hm (by rw [hxp])
    rw [hxe]

theorem find?_key_map_upd (l : List (Nat × Tab)) (tabId : Nat) (u : String) (t0 : Tab)
    (hf : l.find? (fun p => p.1 == tabId) = some (tabId, t0)) :
    (l.map (fun p => if p.1 == tabId then (p.1, { p.2 with url := u }) else p)).find?
      (fun p => p.1 == tabId) = some (tabId, { t0 with url := u }) := by
  induction l with
  | nil => exact Option.noConfusion hf
  | cons a rest ih =>
    cases hk : (a.1 == tabId) with
    | true =>
      rw [List.find?_cons, hk] at hf
      injection hf with hfa
      subst hfa
      rw [List.map_cons, if_pos hk, List.find?_cons]
      simp
    | false =>
      have hk' : ¬((a.1 == tabId) = true) := by
        rw [hk]
        exact Bool.noConfusion
      rw [List.find?_cons, hk] at hf
      rw [List.map_cons, if_neg hk', List.find?_cons, hk]
      exact ih hf

theorem mem_setTabUrl_of_ne (s : SvcState) (tabId : Nat) (u : String) (p : Nat × Tab)
    (hp : p ∈ (setTabUrl s tabId u).tabs) (hne : p.1 ≠ tabId) : p ∈ s.tabs := by
  simp only [setTabUrl, List.mem_map] at hp
  obtain ⟨q, hq, hfq⟩ := hp
  by_cases hk : (q.1 == tabId) = true
  · rw [if_pos hk] at hfq
    have hpk : p.1 = tabId := by
      rw [← hfq]
      exact beq_iff_eq.mp hk
    exact absurd hpk hne
  · rw [if_neg hk] at hfq
    rw [← hfq]
    exact hq

theorem setTabUrl_mem_of_ne (s : SvcState) (tabId : Nat) (u : String) (p : Nat × Tab)
    (hp : p ∈ s.tabs) (hne : p.1 ≠ tabId) : p ∈ (setTabUrl s tabId u).tabs := by
  simp only [setTabUrl, List.mem_map]
  refine ⟨p, hp, ?_⟩
  rw [if_neg (by simpa using hne)]

theorem getAvailableTabStep_reused_spec (s : SvcState) (id : Nat) (t : Tab)
    (h : (getAvailableTabStep s).2 = .reused id t) :
    (getAvailableTabStep s).1 = cleanupClosedTabs s ∧
    (id, t) ∈ (cleanupClosedTabs s).tabs ∧ t.closed = false ∧ t.url = "about:blank" := by
  simp only [getAvailableTabStep] at h ⊢
  split at h
  · exact absurd h (by simp)
  · next hge =>
    split at h
    · next id' t' hfind =>
      injection h with h1 h2
      subst h1
      subst h2
      have hpred := List.find?_some hfind
      simp only [Bool.and_eq_true, Bool.not_eq_true', beq_iff_eq] at hpred
      refine ⟨?_, List.mem_of_find?_eq_some hfind, hpred.1, hpred.2⟩
      rw [if_neg hge]
    · exact absurd h (by simp)

theorem getAvailableTabStep_created_spec (s : SvcState) (id : Nat) (t : Tab)
    (h : (getAvailableTabStep s).2 = .created id t) :
    (getAvailableTabStep s).1.tabs = (cleanupClosedTabs s).tabs ++ [(id, t)] ∧
    t.closed = false ∧ id = s.tabIdCounter + 1 := by
  simp only [getAvailableTabStep] at h ⊢
  split at h
  · next hlt =>
    simp only [createNewTab] at h
    injection h with hid ht
    subst hid
    subst ht
    rw [if_pos hlt]
    refine ⟨?_, rfl, ?_⟩
    · show (createNewTab (cleanupClosedTabs s)).1.tabs = _
      simp only [createNewTab, ensureBrowser_tabs]
    · show (ensureBrowser (cleanupClosedTabs s)).tabIdCounter + 1 = s.tabIdCounter + 1
      rw [ensureBrowser_tabIdCounter]
      rfl
  · split at h
    · exact absurd h (by simp)
    · exact absurd h (by simp)

/-- The failure path of `takeScreenshot` once a tab `tabId` holding a
non-closed page is in the pool: the error propagates, the failure
counter increments, and the pool becomes the previous pool minus every
entry keyed `tabId`. -/
theorem afterAcquire_failure (s : SvcState) (tabId : Nat) (fUrl : String) (out : NavOutcome)
    (hout : out ≠ .ok) (t0 : Tab)
    (hf : s.tabs.find? (fun p => p.1 == tabId) = some (tabId, t0))
    (hc0 : t0.closed = false) :
    (afterAcquire s tabId fUrl out).2 = .error (navFailMsg out) ∧
    (afterAcquire s tabId fUrl out).1.stats.failedRequests = s.stats.failedRequests + 1 ∧
    (afterAcquire s tabId fUrl out).1.tabs =
      (setTabUrl s tabId fUrl).tabs.filter (fun p => p.1 != tabId) := by
  have hfnav : (setTabUrl s tabId fUrl).tabs.find? (fun p => p.1 == tabId) =
      some (tabId, { t0 with url := fUrl }) := find?_key_map_upd s.tabs tabId fUrl t0 hf
  have hcnav : ({ t0 with url := fUrl } : Tab).closed = false := hc0
  cases out with
  | ok => exact absurd rfl hout
  | blocked =>
    refine ⟨rfl, ?_, ?_⟩
    · show (closeTab (bumpFailed (bumpBlocked (setTabUrl s tabId fUrl))) tabId).stats.failedRequests = _
      rw [closeTab_failedRequests]
      rfl
    · show (closeTab (bumpFailed (bumpBlocked (setTabUrl s tabId fUrl))) tabId).tabs = _
      exact closeTab_tabs_of_find? _ tabId (tabId, { t0 with url := fUrl }) hfnav hcnav
  | navError msg =>
    refine ⟨rfl, ?_, ?_⟩
    · show (closeTab (bumpFailed (setTabUrl s tabId fUrl)) tabId).stats.failedRequests = _
      rw [closeTab_failedRequests]
      rfl
    · show (closeTab (bumpFailed (setTabUrl s tabId fUrl)) tabId).tabs = _
      exact closeTab_tabs_of_find? _ tabId (tabId, { t0 with url := fUrl }) hfnav hcnav

/-- C7: whenever `takeScreenshot` fails after a tab was acquired
(blocking detected, navigation error or timeout), the error propagates
to the caller, `stats.failedRequests` increments, the acquired tab is
closed and removed from the pool - never returned to it as idle - and
every other non-closed tab of the pool survives untouched. -/
theorem c7_failure_after_acquire_discards_tab (blockedDomains : List String) (s : SvcState)
    (url : String) (out : NavOutcome) (tabId : Nat) (t : Tab)
    (hnd : (s.tabs.map Prod.fst).Nodup)
    (hbound : ∀ p ∈ s.tabs, p.1 ≤ s.tabIdCounter)
    (hv : validateUrl blockedDomains url = true)
    (hacq : (getAvailableTabStep (bumpTotal s)).2 = .created tabId t ∨
            (getAvailableTabStep (bumpTotal s)).2 = .reused tabId t)
    (hout : out ≠ .ok) :
    (takeScreenshotModel blockedDomains s url out).2 = .error (navFailMsg out) ∧
    (takeScreenshotModel blockedDomains s url out).1.stats.failedRequests =
      s.stats.failedRequests + 1 ∧
    (∀ p ∈ (takeScreenshotModel blockedDomains s url out).1.tabs,
      p ∈ s.tabs ∧ p.1 ≠ tabId) ∧
    (∀ p ∈ s.tabs, p.2.closed = false → p.1 ≠ tabId →
      p ∈ (takeScreenshotModel blockedDomains s url out).1.tabs) := by
  rcases hga : getAvailableTabStep (bumpTotal s) with ⟨sAcq, res⟩
  have hfb : ∀ p, p ∈ (cleanupClosedTabs (bumpTotal s)).tabs ↔
      (p ∈ s.tabs ∧ (!p.2.closed) = true) := by
    intro p
    exact List.mem_filter
  have hmodel : takeScreenshotModel blockedDomains s url out =
      afterAcquire sAcq tabId ((formatUrl url).getD "") out := by
    simp only [takeScreenshotModel]
    rw [hv]
    rw [if_neg (by decide : ¬((!true) = true))]
    cases hacq with
    | inl hc =>
      rw [hga] at hc ⊢
      simp only at hc
      rw [hc]
    | inr hc =>
      rw [hga] at hc ⊢
      simp only at hc
      rw [hc]
  have hfailed : sAcq.stats.failedRequests = s.stats.failedRequests := by
    have := getAvailableTabStep_failedRequests (bumpTotal s)
    rw [hga] at this
    exact this
  -- the acquired tab can be looked up in the acquired pool and is open
  have hkey : sAcq.tabs.find? (fun p => p.1 == tabId) = some (tabId, t) ∧
      t.closed = false ∧
      (∀ p ∈ sAcq.tabs, p.1 ≠ tabId → p ∈ s.tabs) ∧
      (∀ p ∈ s.tabs, p.2.closed = false → p.1 ≠ tabId → p ∈ sAcq.tabs) := by
    cases hacq with
    | inl hc =>
      obtain ⟨htabs0, hclosed, hid⟩ := getAvailableTabStep_created_spec (bumpTotal s) tabId t hc
      rw [hga] at htabs0
      have htabs : sAcq.tabs = (cleanupClosedTabs (bumpTotal s)).tabs ++ [(tabId, t)] := htabs0
      have hid' : tabId = s.tabIdCounter + 1 := hid
      have hnone : (cleanupClosedTabs (bumpTotal s)).tabs.find?
          (fun p => p.1 == tabId) = none := by
        rw [List.find?_eq_none]
        intro p hp
        have hple := hbound p ((hfb p).mp hp).1
        have : p.1 ≠ tabId := by omega
        simpa using this
      refine ⟨?_, hclosed, ?_, ?_⟩
      · rw [htabs, find?_append_of_none _ _ _ hnone]
        exact List.find?_cons_of_pos _ (by simp)
      · intro p hp hne
        rw [htabs] at hp
        rcases List.mem_append.mp hp with hpf | hpx
        · exact ((hfb p).mp hpf).1
        · simp only [List.mem_singleton] at hpx
          exact absurd (by rw [hpx]) hne
      · intro p hp hcl hne
        rw [htabs]
        exact List.mem_append_left _ ((hfb p).mpr ⟨hp, by rw [hcl]; rfl⟩)
    | inr hc =>
      obtain ⟨hst0, hmem, hclosed, _⟩ := getAvailableTabStep_reused_spec (bumpTotal s) tabId t hc
      rw [hga] at hst0
      have hst : sAcq = cleanupClosedTabs (bumpTotal s) := hst0
      have hndc : ((cleanupClosedTabs (bumpTotal s)).tabs.map Prod.fst).Nodup := by
        have hsub : (cleanupClosedTabs (bumpTotal s)).tabs.Sublist s.tabs :=
          List.filter_sublist s.tabs
        exact List.Nodup.sublist (hsub.map Prod.fst) hnd
      refine ⟨?_, hclosed, ?_, ?_⟩
      · rw [hst]
        exact find?_key_of_mem_nodup _ hndc tabId t hmem
      · intro p hp _
        rw [hst] at hp
        exact ((hfb p).mp hp).1
      · intro p hp hcl hne
        rw [hst]
        exact (hfb p).mpr ⟨hp, by rw [hcl]; rfl⟩
  obtain ⟨hfind, hclosed, hsub1, hsub2⟩ := hkey
  obtain ⟨ha1, ha2, ha3⟩ :=
    afterAcquire_failure sAcq tabId ((formatUrl url).getD "") out hout t hfind hclosed
  rw [hmodel]
  refine ⟨ha1, ?_, ?_, ?_⟩
  · rw [ha2, hfailed]
  · intro p hp
    rw [ha3] at hp
    obtain ⟨hpm, hpk⟩ := List.mem_filter.mp hp
    have hpne : p.1 ≠ tabId := by simpa using hpk
    exact ⟨hsub1 p (mem_setTabUrl_of_ne sAcq tabId _ p hpm hpne) hpne, hpne⟩
  · intro p hp hcl hne
    rw [ha3]
    refine List.mem_filter.mpr ⟨?_, by simpa using hne⟩
    exact setTabUrl_mem_of_ne sAcq tabId _ p (hsub2 p hp hcl hne) hne

/-- Witness for C7 at a concrete input: a one-tab pool, a valid url, a
navigation error; the acquired tab 1 is discarded and the failure
counted. -/
theorem c7_witness :
    (takeScreenshotModel [] (initState 1) "https://example.com" (NavOutcome.navError "boom")).2 =
      .error "boom" ∧
    (takeScreenshotModel [] (initState 1) "https://example.com"
      (NavOutcome.navError "boom")).1.stats.failedRequests = 1 := by
  have h := c7_failure_after_acquire_discards_tab [] (initState 1) "https://example.com"
    (NavOutcome.navError "boom") 1 (Tab.mk 0 false "about:blank")
    (by decide) (by decide) (by decide) (Or.inl (by decide)) (by decide)
  exact ⟨h.1, h.2.1⟩

end Screenshot
